import Mathlib

/-!
Verification of the `decker` repository (a playing-card library plus the
Carta memory-maze board game) against its natural-language specification.

The Python sources `src/decker/deck.py` and `src/decker/carta.py` are
shallowly embedded below:

* `Suit`, `PlayingCard` mirror the classes of `deck.py`; Python `int`
  becomes `Int`, the mutable `is_faceup` flag becomes an explicit field.
  Display-only data (`short_name`, `char_value`, court mappings) does not
  influence any verified claim and is omitted from the embedding.
* The free function `shuffle` (Fisher-Yates over a mutable sequence) is
  embedded with an explicit random tape `tape : Nat -> Nat`; the draw of
  `random.randint(0, i)` at index `i` is modelled as `tape i % (i + 1)`,
  so every sequence of draws the Python program can see corresponds to
  some tape, and conversely.
* `Deck.deal` (a loop of `popleft`) becomes the recursive `deal`, which
  returns both the outcome (`none` models the `IndexError` escaping the
  loop) and the final deck state, so that non-atomic failure is visible.
* `Deck.remove` (`deque.remove`, first element equal under
  `PlayingCard.__eq__`) becomes `removeCard`, `none` modelling the
  `ValueError` on a missing card.
* `CartaBoard` of `carta.py` is embedded cell-by-cell: a grid cell is
  either the Python boolean placeholder (`Cell.ph b`) or an occupied cell
  (`Cell.card c`); `mkCartaBoard` follows `__init__`/`_build` statement by
  statement, and `move_step` models one iteration of the input loop in
  `CartaBoard._move` (parse, validate, update), with each Python
  exception path mapped to an explicit `StepOutcome`.
-/

/-- The `Color` enum of `deck.py`. -/
inductive Color
  | red
  | black
deriving DecidableEq, Repr

/-- A `Suit` as built by `Suit.__init__`: an optional name, an integer
value (default 0) and an optional color. The display `short_name` is
derived data and not part of any claim. -/
structure Suit where
  name : Option String
  value : Int
  color : Option Color
deriving DecidableEq, Repr

/-- Color inference of `Suit.__init__`: only the four canonical names
receive a color when none is supplied. -/
def inferColor (name : Option String) : Option Color :=
  match name with
  | some n =>
    if n = "Diamonds" ∨ n = "Hearts" then some Color.red
    else if n = "Clubs" ∨ n = "Spades" then some Color.black
    else none
  | none => none

/-- The `Suit(name, value, color)` constructor (names are supplied already
capitalized, as at every call site of the repository). -/
def mkSuit (name : Option String) (value : Option Int) (color : Option Color) : Suit :=
  { name := name
    value := value.getD 0
    color := match color with
             | some c => some c
             | none => inferColor name }

/-- A `PlayingCard`: suit, integer value, and the `is_faceup` flag
inherited from `Card` (initially false, toggled by `flip`). -/
structure PlayingCard where
  suit : Suit
  value : Int
  is_faceup : Bool
deriving DecidableEq, Repr

/-- The `PlayingCard(suit, value)` constructor: cards start face-down. -/
def mkPlayingCard (suit : Suit) (value : Int) : PlayingCard :=
  { suit := suit, value := value, is_faceup := false }

/-- Equality `PlayingCard.__eq__`: `(self.value, self.suit.value) == (other.value, other.suit.value)`. -/
def cardEq (a b : PlayingCard) : Bool :=
  a.value == b.value && a.suit.value == b.suit.value

/-- Order `PlayingCard.__lt__`: lexicographic comparison of the tuples
`(self.value, self.suit.value) < (other.value, other.suit.value)`. -/
def cardLt (a b : PlayingCard) : Bool :=
  a.value < b.value || (a.value == b.value && a.suit.value < b.suit.value)

/-- One Python assignment `lst[i], lst[r] = lst[r], lst[i]`. Out-of-range
indices never occur along `shuffle`; the catch-all keeps the function total. -/
def swapAt (l : List α) (i j : Nat) : List α :=
  match l.get? i, l.get? j with
  | some a, some b => (l.set i b).set j a
  | _, _ => l

/-- The loop of `shuffle`: indices `i, i-1, ..., 1`; at index `i` the
draw `random.randint(0, i)` is modelled by `tape i % (i + 1)`. -/
def shuffleAux (tape : Nat → Nat) : Nat → List α → List α
  | 0, l => l
  | i + 1, l => shuffleAux tape i (swapAt l (i + 1) (tape (i + 1) % (i + 2)))

/-- The function `shuffle(lst)` of `deck.py`: Fisher-Yates / Durstenfeld, walking from
`len(lst) - 1` down to `1`. -/
def shuffle (tape : Nat → Nat) (l : List α) : List α :=
  shuffleAux tape (l.length - 1) l

/-- Dealing, `Deck.deal(n)`: a loop of `self.cards.popleft()`. The first component
is `none` when `popleft` raises `IndexError` (deck exhausted mid-loop);
the second component is the state of the deck when the loop ends or the
exception escapes. -/
def deal : Nat → List PlayingCard → Option (List PlayingCard) × List PlayingCard
  | 0, cards => (some [], cards)
  | _ + 1, [] => (none, [])
  | n + 1, c :: cs =>
    match deal n cs with
    | (some dealt, rest) => (some (c :: dealt), rest)
    | (none, rest) => (none, rest)

/-- Removal, `Deck.remove(card)` via `deque.remove`: drop the first element equal
to `card` under `PlayingCard.__eq__`; `none` models the `ValueError`
raised when no element matches. -/
def removeCard (deck : List PlayingCard) (card : PlayingCard) : Option (List PlayingCard) :=
  match deck with
  | [] => none
  | c :: cs =>
    if cardEq c card then some cs
    else (removeCard cs card).map (fun r => c :: r)

-- String constants (suit names used by the embedding).

def nameClubs : String := "Clubs"

def nameDiamonds : String := "Diamonds"

def nameHearts : String := "Hearts"

def nameSpades : String := "Spades"

/-- The four default suits of `PlayingCardDeck.__init__`: unranked
(value 0), so that caller-built cards compare correctly. -/
def standardSuits : List Suit :=
  [mkSuit (some nameClubs) none none,
   mkSuit (some nameDiamonds) none none,
   mkSuit (some nameHearts) none none,
   mkSuit (some nameSpades) none none]

/-- Deck construction, `PlayingCardDeck._build`, without jokers: one card per (suit, value)
pair, values `range(min_range, min_range + 13)`. -/
def pcdBuild (suits : List Suit) (acesHigh : Bool) : List PlayingCard :=
  (suits.map (fun s =>
    (List.range 13).map (fun k => mkPlayingCard s ((if acesHigh then 2 else 1) + (k : Int))))).flatten

/-- The `PlayingCardDeck(aces_high=False)` used by the `carta.py` demo. -/
def aceLowDeck : List PlayingCard :=
  pcdBuild standardSuits false

-- ### The Carta board (`carta.py`)

/-- The compass points of the `Direction` enum. The quit aliases
`Q`/`QUIT`/`EXIT` (all enum value 100) are handled by `parseToken`. -/
inductive Direction
  | N
  | NW
  | NE
  | S
  | SW
  | SE
  | E
  | W
deriving DecidableEq, Repr

/-- A grid cell of `CartaGrid = List[List[Union[bool, Card]]]`: either a
Python boolean placeholder or an occupied cell holding a card. -/
inductive Cell
  | ph (b : Bool)
  | card (c : PlayingCard)
deriving DecidableEq, Repr

/-- The test `isinstance(elem, bool)` on a grid cell. -/
def Cell.isBool : Cell → Bool
  | .ph _ => true
  | .card _ => false

/-- The test `isinstance(elem, Card)` on a grid cell. -/
def Cell.isCard : Cell → Bool
  | .ph _ => false
  | .card _ => true

/-- Grid creation, `CartaBoard.create_grid(rows, columns)`: a rows-by-columns matrix of
`True` placeholders. -/
def create_grid (rows columns : Nat) : List (List Cell) :=
  List.replicate rows (List.replicate columns (Cell.ph true))

/-- Grid validation, `CartaBoard.is_valid_grid`: every row as long as the first, every
cell a bool. `none` models the `IndexError` that `grid[0]` raises on an
empty grid. -/
def is_valid_grid (grid : List (List Cell)) : Option Bool :=
  match grid with
  | [] => none
  | r0 :: _ =>
    some (grid.all (fun row => row.length == r0.length && row.all Cell.isBool))

/-- Slot counting, `CartaBoard._available_slots_in_grid`: the number of cells that are
the boolean `True`. -/
def available_slots_in_grid (grid : List (List Cell)) : Nat :=
  (grid.map (fun row => row.countP (fun e => e == Cell.ph true))).sum

/-- The board state: grid, the two distinguished cards, the player
coordinates (unset, as in Python before the attribute is first assigned,
is `none`), and the `allowed_diections` list (sic, the source's
spelling). -/
structure CartaBoard where
  grid : List (List Cell)
  goal_card : PlayingCard
  starting_card : PlayingCard
  player_location : Option (Nat × Nat)
  allowed_diections : List Direction
deriving DecidableEq, Repr

/-- State threaded through the fill loop of `CartaBoard._build`: the
remaining `grid_cards` and the `player_location` assignment (if any). -/
structure FillState where
  cards : List PlayingCard
  loc : Option (Nat × Nat)
deriving DecidableEq, Repr

/-- Body of the fill loop for one cell `grid[i][j]`: if the cell `is
True` then pop the last of `grid_cards` into it, or place the starting
card and record `player_location` once the cards run out. -/
def fillCell (start : PlayingCard) (i j : Nat) (cell : Cell) (st : FillState) :
    Cell × FillState :=
  if cell = Cell.ph true then
    match st.cards.getLast? with
    | some c => (Cell.card c, { st with cards := st.cards.dropLast })
    | none => (Cell.card start, { st with loc := some (i, j) })
  else (cell, st)

/-- Inner loop of `CartaBoard._build` over the cells of row `i`,
starting at column `j`. -/
def fillRow (start : PlayingCard) (i : Nat) : Nat → List Cell → FillState →
    List Cell × FillState
  | _, [], st => ([], st)
  | j, cl :: cls, st =>
    let p := fillCell start i j cl st
    let q := fillRow start i (j + 1) cls p.2
    (p.1 :: q.1, q.2)

/-- Outer loop of `CartaBoard._build` over the rows, starting at row `i`. -/
def fillRows (start : PlayingCard) : Nat → List (List Cell) → FillState →
    List (List Cell) × FillState
  | _, [], st => ([], st)
  | i, row :: rows, st =>
    let p := fillRow start i 0 row st
    let q := fillRows start (i + 1) rows p.2
    (p.1 :: q.1, q.2)

/-- The deck-consuming prefix of `CartaBoard._build`: remove the starting
and goal cards, shuffle, deal `slots - 2` cards, append the goal card and
shuffle again, yielding the `grid_cards` handed to the fill loop.
`startFU` is the starting card after `__init__` set `is_faceup = True`. -/
def gridCardsOf (t1 t2 : Nat → Nat) (deck : List PlayingCard) (grid : List (List Cell))
    (goal startFU : PlayingCard) : Option (List PlayingCard) :=
  match removeCard deck startFU with
  | none => none
  | some d1 =>
    match removeCard d1 goal with
    | none => none
    | some d2 =>
      match deal (available_slots_in_grid grid - 2) (shuffle t1 d2) with
      | (none, _) => none
      | (some dealt, _) => some (shuffle t2 (dealt ++ [goal]))

/-- Board building, `CartaBoard._build`: compute `grid_cards` and run the fill loop,
returning the filled grid and the recorded `player_location`. -/
def buildGrid (t1 t2 : Nat → Nat) (deck : List PlayingCard) (grid : List (List Cell))
    (goal startFU : PlayingCard) : Option (List (List Cell) × Option (Nat × Nat)) :=
  match gridCardsOf t1 t2 deck grid goal startFU with
  | none => none
  | some gcs =>
    some ((fillRows startFU 0 grid { cards := gcs, loc := none }).1,
          (fillRows startFU 0 grid { cards := gcs, loc := none }).2.loc)

/-- The default `allowed_diections` installed by `CartaBoard.__init__`. -/
def defaultDirections : List Direction :=
  [Direction.N, Direction.S, Direction.E, Direction.W]

/-- The constructor `CartaBoard.__init__`: validate the grid, set the starting card
face-up, install the allowed directions (the default when the argument
is absent or empty, matching Python truthiness) and run `_build`.
`none` models a constructor that raises. -/
def mkCartaBoard (t1 t2 : Nat → Nat) (deck : List PlayingCard) (grid : List (List Cell))
    (goal start : PlayingCard) (allowed : Option (List Direction)) : Option CartaBoard :=
  if is_valid_grid grid = some true then
    match buildGrid t1 t2 deck grid goal { start with is_faceup := true } with
    | none => none
    | some (g, loc) =>
      some { grid := g
             goal_card := goal
             starting_card := { start with is_faceup := true }
             player_location := loc
             allowed_diections :=
               match allowed with
               | some (d :: ds) => d :: ds
               | _ => defaultDirections }
  else none

-- ### Movement state machine (`CartaBoard._move` and helpers)

/-- A token recognised by `Direction[input.upper()]`: a compass name, or
one of the aliases `Q`/`QUIT`/`EXIT` (all the enum member `Q`). -/
inductive Token
  | dir (d : Direction)
  | quit
deriving DecidableEq, Repr

/-- Python `input.upper()`: uppercase character by character (a
kernel-reducible equivalent of `String.toUpper`). -/
def strUpper (s : String) : String :=
  String.mk (s.data.map Char.toUpper)

/-- The name lookup `Direction[input.upper()]`; `none` models the
`KeyError` on an unrecognised token. -/
def parseToken (s : String) : Option Token :=
  match strUpper s with
  | "N" => some (Token.dir Direction.N)
  | "NW" => some (Token.dir Direction.NW)
  | "NE" => some (Token.dir Direction.NE)
  | "S" => some (Token.dir Direction.S)
  | "SW" => some (Token.dir Direction.SW)
  | "SE" => some (Token.dir Direction.SE)
  | "E" => some (Token.dir Direction.E)
  | "W" => some (Token.dir Direction.W)
  | "Q" => some Token.quit
  | "QUIT" => some Token.quit
  | "EXIT" => some Token.quit
  | _ => none

/-- Result of `CartaBoard._parse_input_direction`: a direction, the
`sys.exit(0)` on the quit aliases, or the `ValueError` raised on a
`KeyError`/failed `assert direction in self.allowed_diections`. -/
inductive ParseResult
  | ok (d : Direction)
  | quit
  | invalid
deriving DecidableEq, Repr

/-- Parsing, `CartaBoard._parse_input_direction` (note: the quit check precedes
the allowed-directions assertion, as in the source). -/
def parse_input_direction (allowed : List Direction) (s : String) : ParseResult :=
  match parseToken s with
  | none => ParseResult.invalid
  | some Token.quit => ParseResult.quit
  | some (Token.dir d) => if d ∈ allowed then ParseResult.ok d else ParseResult.invalid

/-- Movement offsets, `CartaBoard._new_location`: the unit offset for a cardinal
direction; `none` models the `NotImplementedError` on diagonals. -/
def new_location (loc : Int × Int) : Direction → Option (Int × Int)
  | Direction.N => some (loc.1 - 1, loc.2)
  | Direction.S => some (loc.1 + 1, loc.2)
  | Direction.W => some (loc.1, loc.2 - 1)
  | Direction.E => some (loc.1, loc.2 + 1)
  | _ => none

/-- Python list subscription `l[i]`: non-negative indices from the
front, negative indices from the back, `none` for the `IndexError`. -/
def pyGet (l : List α) (i : Int) : Option α :=
  if 0 ≤ i then l.get? i.toNat
  else if -(l.length : Int) ≤ i then l.get? ((l.length : Int) + i).toNat
  else none

/-- Validation, `CartaBoard._is_valid_move`, as a boolean: `true` when
`self.grid[ns][we]` subscripts without `IndexError`, both coordinates
are non-negative, and the cell holds a Card; `false` is the path that
raises `ValueError` (caught by `_move`, which reprompts). -/
def is_valid_move (grid : List (List Cell)) (cand : Int × Int) : Bool :=
  match pyGet grid cand.1 with
  | none => false
  | some row =>
    match pyGet row cand.2 with
    | none => false
    | some cell => decide (0 ≤ cand.1) && decide (0 ≤ cand.2) && cell.isCard

/-- The assignment `self.grid[i][j].is_faceup = True` after a successful
move (the cell is guaranteed to hold a card by `_is_valid_move`). -/
def setFaceUp (grid : List (List Cell)) (i j : Nat) : List (List Cell) :=
  match grid.get? i with
  | none => grid
  | some row =>
    match row.get? j with
    | none => grid
    | some (Cell.ph _) => grid
    | some (Cell.card c) => grid.set i (row.set j (Cell.card { c with is_faceup := true }))

/-- Outcome of one iteration of the input loop in `CartaBoard._move`:
a successful move, the recoverable `ValueError`s (unparsed/disallowed
direction; invalid candidate cell), `sys.exit` on quit, the uncaught
`NotImplementedError` on an allowed diagonal, and the uncaught
`AttributeError` when `player_location` was never assigned. -/
inductive StepOutcome
  | moved
  | invalidDirection
  | illegalMove
  | quit
  | notImplemented
  | attrError
deriving DecidableEq, Repr

/-- The successful-move update of `CartaBoard._move`: assign
`player_location` to the candidate and set the destination card
face-up. -/
def movedBoard (b : CartaBoard) (cand : Int × Int) : CartaBoard :=
  { b with player_location := some (cand.1.toNat, cand.2.toNat),
           grid := setFaceUp b.grid cand.1.toNat cand.2.toNat }

/-- One iteration of the loop in `CartaBoard._move`: parse the input,
validate the candidate coordinate, and on success update
`player_location` and flip the destination card face-up. The returned
board is the state after the iteration (unchanged on every error path). -/
def move_step (b : CartaBoard) (input : String) : StepOutcome × CartaBoard :=
  match parse_input_direction b.allowed_diections input with
  | ParseResult.invalid => (StepOutcome.invalidDirection, b)
  | ParseResult.quit => (StepOutcome.quit, b)
  | ParseResult.ok d =>
    match b.player_location with
    | none => (StepOutcome.attrError, b)
    | some (i, j) =>
      match new_location ((i : Int), (j : Int)) d with
      | none => (StepOutcome.notImplemented, b)
      | some cand =>
        if is_valid_move b.grid cand then (StepOutcome.moved, movedBoard b cand)
        else (StepOutcome.illegalMove, b)

-- ### Derived predicates used in the statements

/-- A cell equal (under `PlayingCard.__eq__`) to a given card. -/
def cellEqCard (cl : Cell) (x : PlayingCard) : Bool :=
  match cl with
  | Cell.card y => cardEq y x
  | Cell.ph _ => false

/-- A cell holding a face-up card. -/
def cellFaceUp (cl : Cell) : Bool :=
  match cl with
  | Cell.card y => y.is_faceup
  | Cell.ph _ => false

/-- The flattened list of grid cells of a board, row-major. -/
def boardCells (b : CartaBoard) : List Cell :=
  b.grid.flatten

/-- A candidate coordinate whose subscription `grid[ns][we]` raises
`IndexError` (row or column outside the grid). -/
def outOfGrid (grid : List (List Cell)) (cand : Int × Int) : Prop :=
  pyGet grid cand.1 = none ∨ ∃ row, pyGet grid cand.1 = some row ∧ pyGet row cand.2 = none

/-- A candidate coordinate that subscripts fine but lands on a leftover
placeholder rather than a Card. -/
def onPlaceholder (grid : List (List Cell)) (cand : Int × Int) : Prop :=
  ∃ row cell, pyGet grid cand.1 = some row ∧ pyGet row cand.2 = some cell ∧ cell.isCard = false

-- ### Concrete fixtures for counterexamples and witnesses

/-- The all-zero random tape (the draw at index `i` is `0 % (i+1) = 0`,
a legal value of `random.randint(0, i)`). -/
def t0 : Nat → Nat := fun _ => 0

/-- The card `PlayingCard(Suit('Hearts'), 2)`, the demo goal card. -/
def hearts2 : PlayingCard := mkPlayingCard (mkSuit (some nameHearts) none none) 2

/-- The card `PlayingCard(Suit('Clubs'), 2)`, the demo starting card. -/
def clubs2 : PlayingCard := mkPlayingCard (mkSuit (some nameClubs) none none) 2

/-- A goal card over an anonymous suit of rank 1 (tiny test deck). -/
def miniGoal : PlayingCard := mkPlayingCard (mkSuit none (some 1) none) 2

/-- A starting card over an anonymous suit of rank 2 (tiny test deck). -/
def miniStart : PlayingCard := mkPlayingCard (mkSuit none (some 2) none) 3

/-- A filler card over an anonymous suit of rank 3 (tiny test deck). -/
def miniCard3 : PlayingCard := mkPlayingCard (mkSuit none (some 3) none) 4

def strN : String := "N"

def strS : String := "S"

def strNE : String := "NE"

def strXX : String := "XX"

/-- A 1×1 board whose sole cell holds a card, player on it. -/
def b1x1 : CartaBoard :=
  { grid := [[Cell.card miniGoal]]
    goal_card := miniGoal
    starting_card := miniStart
    player_location := some (0, 0)
    allowed_diections := defaultDirections }

/-- A board configured with the diagonal `NE` among its allowed
directions (legal per the constructor signature). -/
def neBoard : CartaBoard :=
  { grid := [[Cell.card miniGoal]]
    goal_card := miniGoal
    starting_card := miniStart
    player_location := some (0, 0)
    allowed_diections := [Direction.N, Direction.S, Direction.E, Direction.W, Direction.NE] }

/-- A 2×1 board with two occupied cells, player on the bottom one. -/
def b2x1 : CartaBoard :=
  { grid := [[Cell.card miniGoal], [Cell.card miniStart]]
    goal_card := miniGoal
    starting_card := miniStart
    player_location := some (1, 0)
    allowed_diections := defaultDirections }

-- ### Theorems

-- Permutation facts about `swapAt` and `shuffle`.

theorem cons_set_perm : ∀ (t : List α) (k : Nat) (b x : α),
    t.get? k = some b → (b :: t.set k x).Perm (x :: t) := by
  intro t
  induction t with
  | nil => intro k b x h; cases h
  | cons c s ih =>
    intro k b x h
    cases k with
    | zero =>
      have hb : c = b := by simpa using h
      subst hb
      exact List.Perm.swap x c s
    | succ k =>
      have h' : s.get? k = some b := h
      have e : (b :: (c :: s).set (k + 1) x) = b :: c :: s.set k x := rfl
      rw [e]
      exact ((List.Perm.swap c b _).trans ((ih k b x h').cons c)).trans (List.Perm.swap x c s)

theorem set_set_swap_perm : ∀ (l : List α) (i j : Nat) (a b : α),
    l.get? i = some a → l.get? j = some b → ((l.set i b).set j a).Perm l := by
  intro l
  induction l with
  | nil => intro i j a b h; cases h
  | cons x t ih =>
    intro i j a b hi hj
    cases i with
    | zero =>
      have ha : x = a := by simpa using hi
      subst ha
      cases j with
      | zero =>
        have hb : x = b := by simpa using hj
        subst hb
        exact List.Perm.refl _
      | succ k =>
        have hj' : t.get? k = some b := hj
        have e : ((x :: t).set 0 b).set (k + 1) x = b :: t.set k x := rfl
        rw [e]
        exact cons_set_perm t k b x hj'
    | succ m =>
      have hi' : t.get? m = some a := hi
      cases j with
      | zero =>
        have hb : x = b := by simpa using hj
        subst hb
        have e : ((x :: t).set (m + 1) x).set 0 a = a :: t.set m x := rfl
        rw [e]
        exact cons_set_perm t m a x hi'
      | succ k =>
        have hj' : t.get? k = some b := hj
        have e : ((x :: t).set (m + 1) b).set (k + 1) a = x :: (t.set m b).set k a := rfl
        rw [e]
        exact (ih m k a b hi' hj').cons x

theorem swapAt_perm (l : List α) (i j : Nat) : (swapAt l i j).Perm l := by
  unfold swapAt
  cases hi : l.get? i with
  | none => exact List.Perm.refl l
  | some a =>
    cases hj : l.get? j with
    | none => exact List.Perm.refl l
    | some b => exact set_set_swap_perm l i j a b hi hj

theorem shuffleAux_perm (tape : Nat → Nat) : ∀ (i : Nat) (l : List α),
    (shuffleAux tape i l).Perm l := by
  intro i
  induction i with
  | zero => intro l; exact List.Perm.refl l
  | succ i ih =>
    intro l
    exact (ih _).trans (swapAt_perm l (i + 1) (tape (i + 1) % (i + 2)))

theorem shuffle_perm (tape : Nat → Nat) (l : List α) : (shuffle tape l).Perm l :=
  shuffleAux_perm tape (l.length - 1) l

-- A change of suit name, suit color, or face-up state of a card (the
-- data `PlayingCard.__eq__` / `__lt__` never read).

def reDress (x : PlayingCard) (n : Option String) (c : Option Color) (f : Bool) : PlayingCard :=
  { suit := { name := n, value := x.suit.value, color := c }
    value := x.value
    is_faceup := f }

/-- C2: two `PlayingCard`s are equal exactly when their
`(value, suit.value)` tuples coincide, and the order is lexicographic on
those tuples; replacing the suit names, suit colors, or face-up flags of
the operands (all the data that is not part of the tuple) changes
neither equality nor the strict order. -/
theorem playingCard_eq_ord_by_rank_pairs (a b : PlayingCard) (n1 n2 : Option String)
    (c1 c2 : Option Color) (f1 f2 : Bool) :
    (cardEq a b = true ↔ (a.value, a.suit.value) = (b.value, b.suit.value))
    ∧ cardEq (reDress a n1 c1 f1) (reDress b n2 c2 f2) = cardEq a b
    ∧ cardLt (reDress a n1 c1 f1) (reDress b n2 c2 f2) = cardLt a b
    ∧ (cardLt a b = true ↔
        (a.value < b.value ∨ (a.value = b.value ∧ a.suit.value < b.suit.value))) := by
  refine ⟨?_, rfl, rfl, ?_⟩
  · simp [cardEq, Prod.ext_iff]
  · simp [cardLt]

/-- C3: the Fisher-Yates `shuffle` (for any realisation `tape` of the
random draws) permutes its input: the result is a permutation of the
input list, so its length and its multiset of elements are unchanged. -/
theorem shuffle_is_permutation (tape : Nat → Nat) (l : List PlayingCard) :
    (shuffle tape l).Perm l
    ∧ (shuffle tape l).length = l.length
    ∧ (∀ c : PlayingCard, (shuffle tape l).count c = l.count c) := by
  refine ⟨shuffle_perm tape l, (shuffle_perm tape l).length_eq, ?_⟩
  intro c
  exact (shuffle_perm tape l).count_eq c

/-- C4: `deal n` on a deck with at least `n` cards removes and returns
exactly the first `n` cards in order, leaving the rest (so the deck
shrinks by exactly `n`, and `deal 0` is a no-op); when `n` exceeds the
number of remaining cards it fails (`IndexError` from `popleft`). -/
theorem deal_spec (deck : List PlayingCard) (n : Nat) :
    deal n deck = if n ≤ deck.length
      then (some (deck.take n), deck.drop n)
      else (none, ([] : List PlayingCard)) := by
  induction n generalizing deck with
  | zero => simp [deal]
  | succ n ih =>
    cases deck with
    | nil => simp [deal]
    | cons c cs =>
      rw [deal, ih cs]
      by_cases h : n ≤ cs.length
      · rw [if_pos h, if_pos (by simpa using Nat.succ_le_succ h)]
        simp
      · rw [if_neg h, if_neg (by simpa using fun hh => h (Nat.le_of_succ_le_succ hh))]

/-- C10: when `n` exceeds the deck length, `deal n` fails only after
draining the deck: the error escapes with the deck left empty, not
restored (the failure is not atomic). -/
theorem deal_underflow_drains (deck : List PlayingCard) (n : Nat) (h : deck.length < n) :
    deal n deck = (none, ([] : List PlayingCard)) := by
  rw [deal_spec, if_neg (Nat.not_le_of_lt h)]

/-- Witness for C10: a one-card deck dealt 3 cards fails and is left empty. -/
theorem deal_underflow_drains_witness :
    deal 3 [mkPlayingCard (mkSuit (some nameHearts) none none) 2] = (none, []) :=
  deal_underflow_drains [mkPlayingCard (mkSuit (some nameHearts) none none) 2] 3 (by decide)

-- Characterisation of `_is_valid_move`.

theorem is_valid_move_iff (grid : List (List Cell)) (cand : Int × Int) :
    is_valid_move grid cand = true ↔
      0 ≤ cand.1 ∧ 0 ≤ cand.2 ∧ ∃ row cell, pyGet grid cand.1 = some row ∧
        pyGet row cand.2 = some cell ∧ cell.isCard = true := by
  cases hg : pyGet grid cand.1 with
  | none =>
    unfold is_valid_move
    simp [hg]
  | some row =>
    cases hr : pyGet row cand.2 with
    | none =>
      unfold is_valid_move
      simp only [hg, hr]
      simp [hr]
    | some cell =>
      unfold is_valid_move
      simp only [hg, hr, Bool.and_eq_true, decide_eq_true_eq, Option.some.injEq]
      constructor
      · rintro ⟨⟨h1, h2⟩, h3⟩
        exact ⟨h1, h2, row, cell, rfl, hr, h3⟩
      · rintro ⟨h1, h2, row', cell', hrow, hcell, hc⟩
        subst hrow
        rw [hr] at hcell
        injection hcell with hcell
        subst hcell
        exact ⟨⟨h1, h2⟩, hc⟩

/-- C8 (amended): on every NON-empty grid, `is_valid_grid` returns a
boolean, and it returns `true` exactly when every row has the first
row's length and every cell is a boolean placeholder; on the empty grid
the function raises `IndexError` instead of returning (see the
counterexample). -/
theorem is_valid_grid_spec (r0 : List Cell) (rs : List (List Cell)) :
    is_valid_grid (r0 :: rs) =
      some ((r0 :: rs).all (fun row => row.length == r0.length && row.all Cell.isBool))
    ∧ (is_valid_grid (r0 :: rs) = some true ↔
        (∀ row ∈ r0 :: rs, row.length = r0.length)
        ∧ (∀ row ∈ r0 :: rs, ∀ cl ∈ row, cl.isBool = true)) := by
  refine ⟨rfl, ?_⟩
  simp only [is_valid_grid, Option.some.injEq, List.all_eq_true, Bool.and_eq_true, beq_iff_eq]
  constructor
  · intro h
    exact ⟨fun row hr => (h row hr).1, fun row hr => (h row hr).2⟩
  · rintro ⟨h1, h2⟩ row hr
    exact ⟨h1 row hr, h2 row hr⟩

/-- C8 counterexample: the empty grid is (vacuously) rectangular and
all-placeholder, so the claim demands `is_valid_grid` return `true`; the
code instead raises `IndexError` at `grid[0]` (modelled as `none`). -/
theorem is_valid_grid_empty_crashes :
    (∀ row ∈ ([] : List (List Cell)), ∀ cl ∈ row, cl.isBool = true)
    ∧ is_valid_grid ([] : List (List Cell)) = none
    ∧ ∀ bb : Bool, is_valid_grid ([] : List (List Cell)) ≠ some bb := by
  refine ⟨by simp, rfl, ?_⟩
  intro bb h
  cases h

/-- C8 witness: a concrete non-empty all-placeholder grid is accepted. -/
theorem is_valid_grid_spec_witness :
    is_valid_grid [[Cell.ph true]] = some true :=
  ((is_valid_grid_spec [Cell.ph true] []).2).mpr (by simp [Cell.isBool])

/-- C5: a cardinal move (successfully parsed direction) whose candidate
coordinate has a negative row or column, subscripts outside the grid, or
lands on a leftover placeholder, yields the illegal-move outcome (the
`ValueError` that `_move` catches to reprompt), and the board — its
`player_location` and every grid cell — is returned unchanged. -/
theorem illegal_move_rejected (b : CartaBoard) (s : String) (d : Direction) (i j : Nat)
    (cand : Int × Int)
    (hp : parse_input_direction b.allowed_diections s = ParseResult.ok d)
    (hl : b.player_location = some (i, j))
    (hn : new_location ((i : Int), (j : Int)) d = some cand)
    (hbad : cand.1 < 0 ∨ cand.2 < 0 ∨ outOfGrid b.grid cand ∨ onPlaceholder b.grid cand) :
    move_step b s = (StepOutcome.illegalMove, b) := by
  have hv : is_valid_move b.grid cand = false := by
    rw [Bool.eq_false_iff]
    intro htrue
    rcases (is_valid_move_iff b.grid cand).mp htrue with ⟨h1, h2, row, cell, hrow, hcell, hc⟩
    rcases hbad with hb | hb | hb | hb
    · omega
    · omega
    · rcases hb with hb | ⟨row', hrow', hr'⟩
      · rw [hrow] at hb; cases hb
      · rw [hrow] at hrow'
        cases hrow'
        rw [hcell] at hr'
        cases hr'
    · rcases hb with ⟨row', cell', hrow', hcell', hc'⟩
      rw [hrow] at hrow'
      cases hrow'
      rw [hcell] at hcell'
      cases hcell'
      rw [hc] at hc'
      cases hc'
  simp only [move_step, hp, hl, hn, hv]
  simp

/-- C5 witness: moving `N` from row 0 of a 1×1 board (candidate row −1)
is rejected and the board is unchanged. -/
theorem illegal_move_rejected_witness :
    move_step b1x1 strN = (StepOutcome.illegalMove, b1x1) :=
  illegal_move_rejected b1x1 strN Direction.N 0 0 (-1, 0) (by decide) rfl (by decide)
    (Or.inl (by decide))

/-- C6 (amended): an input token that is unrecognised, or parses to a
direction outside the board's `allowed_diections` (which, under the
default configuration, includes every diagonal), makes the per-turn
transition signal the invalid-direction condition (`ValueError`, caught
by `_move` to reprompt) with the board unchanged. A diagonal that IS in
`allowed_diections` instead escapes with `NotImplementedError` (see the
counterexample). -/
theorem invalid_direction_rejected (b : CartaBoard) (s : String)
    (h : parseToken s = none
      ∨ ∃ d, parseToken s = some (Token.dir d) ∧ d ∉ b.allowed_diections) :
    move_step b s = (StepOutcome.invalidDirection, b) := by
  have hp : parse_input_direction b.allowed_diections s = ParseResult.invalid := by
    rcases h with h | ⟨d, hd, hnotin⟩
    · unfold parse_input_direction
      rw [h]
    · unfold parse_input_direction
      rw [hd]
      simp [hnotin]
  simp only [move_step, hp]

/-- C6 witness: the unrecognised token `"XX"` and (under the default
directions) the diagonal token `"NE"` are both rejected with the board
unchanged. -/
theorem invalid_direction_rejected_witness :
    move_step b1x1 strXX = (StepOutcome.invalidDirection, b1x1)
    ∧ move_step b1x1 strNE = (StepOutcome.invalidDirection, b1x1) :=
  ⟨invalid_direction_rejected b1x1 strXX (Or.inl (by decide)),
   invalid_direction_rejected b1x1 strNE
     (Or.inr ⟨Direction.NE, by decide, by decide⟩)⟩

/-- C6 counterexample: on a board whose `allowed_diections` contains the
diagonal `NE`, the diagonal token does NOT signal the recoverable
invalid-direction condition; `_new_location` raises
`NotImplementedError`, which `_move`'s `except ValueError` does not
catch. -/
theorem diagonal_token_not_invalid_direction :
    (∃ d, parseToken strNE = some (Token.dir d)
       ∧ (d = Direction.NE ∨ d = Direction.NW ∨ d = Direction.SE ∨ d = Direction.SW))
    ∧ move_step neBoard strNE = (StepOutcome.notImplemented, neBoard)
    ∧ StepOutcome.notImplemented ≠ StepOutcome.invalidDirection := by
  refine ⟨⟨Direction.NE, by decide, Or.inl rfl⟩, by decide, by decide⟩

/-- C9: from any position, if moving `N` succeeds and then moving `S`
succeeds, the player is back at the original coordinate (in particular
from any interior row with both target cells occupied). -/
theorem north_then_south_roundtrip (b b1 b2 : CartaBoard) (i j : Nat)
    (hl : b.player_location = some (i, j))
    (h1 : move_step b strN = (StepOutcome.moved, b1))
    (h2 : move_step b1 strS = (StepOutcome.moved, b2)) :
    b2.player_location = b.player_location := by
  have hpN : ∀ al : List Direction, parse_input_direction al strN =
      if Direction.N ∈ al then ParseResult.ok Direction.N else ParseResult.invalid := by
    intro al
    rfl
  have hpS : ∀ al : List Direction, parse_input_direction al strS =
      if Direction.S ∈ al then ParseResult.ok Direction.S else ParseResult.invalid := by
    intro al
    rfl
  by_cases hN : Direction.N ∈ b.allowed_diections
  case neg =>
    have e1 : move_step b strN = (StepOutcome.invalidDirection, b) := by
      unfold move_step
      rw [hpN, if_neg hN]
    rw [e1] at h1
    injection h1 with h1a h1b
    exact absurd h1a (by decide)
  case pos =>
    have e1 : move_step b strN =
        (if is_valid_move b.grid ((i : Int) - 1, (j : Int))
         then (StepOutcome.moved, movedBoard b ((i : Int) - 1, (j : Int)))
         else (StepOutcome.illegalMove, b)) := by
      unfold move_step
      rw [hpN, if_pos hN, hl]
      rfl
    rw [e1] at h1
    by_cases hv : is_valid_move b.grid ((i : Int) - 1, (j : Int)) = true
    case neg =>
      rw [if_neg hv] at h1
      injection h1 with h1a h1b
      exact absurd h1a (by decide)
    case pos =>
      rw [if_pos hv] at h1
      injection h1 with h1a h1b
      have hnn : 0 ≤ (i : Int) - 1 := ((is_valid_move_iff _ _).mp hv).1
      have hi1 : 1 ≤ i := by omega
      have eI : ((i : Int) - 1).toNat = i - 1 := by omega
      have eJ : ((j : Int)).toNat = j := by omega
      have hb1loc : b1.player_location = some (i - 1, j) := by
        rw [← h1b]
        unfold movedBoard
        simp only [eI, eJ]
      by_cases hS : Direction.S ∈ b1.allowed_diections
      case neg =>
        have e2 : move_step b1 strS = (StepOutcome.invalidDirection, b1) := by
          unfold move_step
          rw [hpS, if_neg hS]
        rw [e2] at h2
        injection h2 with h2a h2b
        exact absurd h2a (by decide)
      case pos =>
        have e2 : move_step b1 strS =
            (if is_valid_move b1.grid (((i - 1 : Nat) : Int) + 1, (j : Int))
             then (StepOutcome.moved, movedBoard b1 (((i - 1 : Nat) : Int) + 1, (j : Int)))
             else (StepOutcome.illegalMove, b1)) := by
          unfold move_step
          rw [hpS, if_pos hS, hb1loc]
          rfl
        rw [e2] at h2
        by_cases hv2 : is_valid_move b1.grid (((i - 1 : Nat) : Int) + 1, (j : Int)) = true
        case neg =>
          rw [if_neg hv2] at h2
          injection h2 with h2a h2b
          exact absurd h2a (by decide)
        case pos =>
          rw [if_pos hv2] at h2
          injection h2 with h2a h2b
          have eI2 : ((((i - 1 : Nat) : Int) + 1)).toNat = i := by omega
          rw [← h2b, hl]
          unfold movedBoard
          simp only [eI2, eJ]

/-- C9 witness: on the 2×1 board, `N` from (1,0) then `S` returns the
player to (1,0). -/
theorem north_then_south_roundtrip_witness :
    ((move_step (move_step b2x1 strN).2 strS).2).player_location = b2x1.player_location :=
  north_then_south_roundtrip b2x1 (move_step b2x1 strN).2 (move_step (move_step b2x1 strN).2 strS).2
    1 0 rfl (by decide) (by decide)

-- ### The grid-fill loop of `CartaBoard._build`

theorem countP_replicate (n : Nat) (x : Cell) (p : Cell → Bool) :
    (List.replicate n x).countP p = if p x then n else 0 := by
  induction n with
  | zero => simp
  | succ n ih =>
    rw [List.replicate_succ, List.countP_cons, ih]
    split <;> simp_all

theorem available_slots_create (r c : Nat) :
    available_slots_in_grid (create_grid r c) = r * c := by
  unfold available_slots_in_grid create_grid
  rw [List.map_replicate]
  have hrow : (List.replicate c (Cell.ph true)).countP (fun e => e == Cell.ph true) = c := by
    rw [countP_replicate]
    simp
  rw [hrow, List.sum_replicate, smul_eq_mul]

theorem is_valid_grid_create (r c : Nat) (hr : 1 ≤ r) :
    is_valid_grid (create_grid r c) = some true := by
  cases r with
  | zero => omega
  | succ r =>
    unfold create_grid
    rw [List.replicate_succ]
    unfold is_valid_grid
    simp [List.all_eq_true, List.mem_replicate, Cell.isBool]

theorem removeCard_subset (l : List PlayingCard) (card : PlayingCard) (l' : List PlayingCard)
    (h : removeCard l card = some l') : ∀ x ∈ l', x ∈ l := by
  induction l generalizing l' with
  | nil => cases h
  | cons c cs ih =>
    unfold removeCard at h
    by_cases hd : cardEq c card = true
    · rw [if_pos hd] at h
      injection h with h
      subst h
      intro x hx
      exact List.mem_cons_of_mem c hx
    · rw [if_neg hd] at h
      cases hrec : removeCard cs card with
      | none => rw [hrec] at h; cases h
      | some r =>
        rw [hrec] at h
        injection h with h
        subst h
        intro x hx
        rcases List.mem_cons.mp hx with hx | hx
        · exact hx ▸ List.mem_cons_self c cs
        · exact List.mem_cons_of_mem c (ih r hrec x hx)

theorem fillRow_replicate_full (start : PlayingCard) (i : Nat) :
    ∀ (c j : Nat) (L : List PlayingCard) (loc : Option (Nat × Nat)), c ≤ L.length →
    fillRow start i j (List.replicate c (Cell.ph true)) ⟨L, loc⟩
      = ((L.drop (L.length - c)).reverse.map Cell.card,
         ⟨L.take (L.length - c), loc⟩) := by
  intro c
  induction c with
  | zero =>
    intro j L loc _
    simp [fillRow]
  | succ c ih =>
    intro j L loc hc
    rcases L.eq_nil_or_concat with rfl | ⟨L', a, hL⟩
    · simp at hc
    · rw [List.concat_eq_append] at hL
      subst hL
      have hlen : (L' ++ [a]).length = L'.length + 1 := by simp
      have hc' : c ≤ L'.length := by
        rw [hlen] at hc
        omega
      rw [List.replicate_succ, fillRow]
      have hcell : fillCell start i j (Cell.ph true) ⟨L' ++ [a], loc⟩
          = (Cell.card a, ⟨L', loc⟩) := by
        unfold fillCell
        rw [if_pos rfl]
        rw [List.getLast?_concat, List.dropLast_concat]
      rw [hcell]
      have hrest := ih (j + 1) L' loc hc'
      rw [hrest]
      have hm : (L' ++ [a]).length - (c + 1) = L'.length - c := by
        rw [hlen]
        omega
      have hdrop : (L' ++ [a]).drop (L'.length - c) = L'.drop (L'.length - c) ++ [a] :=
        List.drop_append_of_le_length (by omega)
      have htake : (L' ++ [a]).take (L'.length - c) = L'.take (L'.length - c) :=
        List.take_append_of_le_length (by omega)
      rw [hm, hdrop, htake]
      simp

theorem fillRow_replicate_exhaust (start : PlayingCard) (i : Nat) :
    ∀ (c j : Nat) (L : List PlayingCard) (loc : Option (Nat × Nat)), L.length + 1 = c →
    fillRow start i j (List.replicate c (Cell.ph true)) ⟨L, loc⟩
      = (L.reverse.map Cell.card ++ [Cell.card start], ⟨[], some (i, j + L.length)⟩) := by
  intro c
  induction c with
  | zero =>
    intro j L loc h
    omega
  | succ c ih =>
    intro j L loc h
    rcases L.eq_nil_or_concat with rfl | ⟨L', a, hL⟩
    · have hc0 : c = 0 := by simpa using h
      subst hc0
      rw [List.replicate_succ, fillRow]
      have hcell : fillCell start i j (Cell.ph true) ⟨[], loc⟩
          = (Cell.card start, ⟨[], some (i, j)⟩) := by
        unfold fillCell
        rw [if_pos rfl]
        rfl
      rw [hcell]
      simp [fillRow]
    · rw [List.concat_eq_append] at hL
      subst hL
      have hlen : (L' ++ [a]).length = L'.length + 1 := by simp
      have hc' : L'.length + 1 = c := by
        rw [hlen] at h
        omega
      rw [List.replicate_succ, fillRow]
      have hcell : fillCell start i j (Cell.ph true) ⟨L' ++ [a], loc⟩
          = (Cell.card a, ⟨L', loc⟩) := by
        unfold fillCell
        rw [if_pos rfl]
        rw [List.getLast?_concat, List.dropLast_concat]
      rw [hcell, ih (j + 1) L' loc hc']
      have hrev : (L' ++ [a]).reverse = a :: L'.reverse := by simp
      rw [hrev, hlen]
      simp
      omega

theorem fillRows_replicate (start : PlayingCard) :
    ∀ (r : Nat), 1 ≤ r → ∀ (c i : Nat) (L : List PlayingCard) (loc : Option (Nat × Nat)),
    1 ≤ c → L.length + 1 = r * c →
    (fillRows start i (List.replicate r (List.replicate c (Cell.ph true))) ⟨L, loc⟩).1.flatten
        = L.reverse.map Cell.card ++ [Cell.card start]
    ∧ (fillRows start i (List.replicate r (List.replicate c (Cell.ph true))) ⟨L, loc⟩).2
        = ⟨[], some (i + (r - 1), c - 1)⟩ := by
  intro r
  induction r with
  | zero =>
    intro h
    omega
  | succ r ih =>
    intro _ c i L loc hc hlen
    rcases Nat.eq_zero_or_pos r with rfl | hr
    · have hLc : L.length + 1 = c := by simpa using hlen
      rw [List.replicate_succ, List.replicate_zero, fillRows]
      rw [fillRow_replicate_exhaust start i c 0 L loc hLc]
      simp only [fillRows]
      constructor
      · simp
      · simp
        omega
    · have h1c : c ≤ r * c := by
        calc c = 1 * c := (one_mul c).symm
          _ ≤ r * c := Nat.mul_le_mul_right c hr
      have h2a : L.length + 1 = r * c + c := by
        rw [hlen]
        ring
      have hclen : c ≤ L.length := by omega
      rw [List.replicate_succ, fillRows]
      rw [fillRow_replicate_full start i c 0 L loc hclen]
      have h2 : L.length + 1 = r * c + c := by
        rw [hlen]
        ring
      have htlen : (L.take (L.length - c)).length + 1 = r * c := by
        rw [List.length_take]
        omega
      have hih := ih hr c (i + 1) (L.take (L.length - c)) loc hc htlen
      constructor
      · simp only [List.flatten_cons, hih.1]
        have hsplit : L.reverse = (L.drop (L.length - c)).reverse ++ (L.take (L.length - c)).reverse := by
          rw [← List.reverse_append, List.take_append_drop]
        rw [hsplit, List.map_append, List.append_assoc]
      · rw [hih.2]
        have : i + 1 + (r - 1) = i + (r + 1 - 1) := by omega
        rw [this]

theorem gridCardsOf_inv (t1 t2 : Nat → Nat) (deck : List PlayingCard)
    (grid : List (List Cell)) (goal startFU : PlayingCard) (gcs : List PlayingCard)
    (h : gridCardsOf t1 t2 deck grid goal startFU = some gcs) :
    gcs.length = available_slots_in_grid grid - 2 + 1
    ∧ goal ∈ gcs
    ∧ (∀ x ∈ gcs, x ∈ deck ∨ x = goal) := by
  unfold gridCardsOf at h
  cases h1 : removeCard deck startFU with
  | none => rw [h1] at h; cases h
  | some d1 =>
    rw [h1] at h
    replace h : (match removeCard d1 goal with
      | none => none
      | some d2 =>
        match deal (available_slots_in_grid grid - 2) (shuffle t1 d2) with
        | (none, _) => none
        | (some dealt, _) => some (shuffle t2 (dealt ++ [goal]))) = some gcs := h
    cases h2 : removeCard d1 goal with
    | none => rw [h2] at h; cases h
    | some d2 =>
      rw [h2] at h
      replace h : (match deal (available_slots_in_grid grid - 2) (shuffle t1 d2) with
        | (none, _) => none
        | (some dealt, _) => some (shuffle t2 (dealt ++ [goal]))) = some gcs := h
      cases h3 : deal (available_slots_in_grid grid - 2) (shuffle t1 d2) with
      | mk fst snd =>
        cases fst with
        | none =>
          rw [h3] at h
          cases h
        | some dealt =>
          rw [h3] at h
          injection h with h
          subst h
          rw [deal_spec] at h3
          by_cases hle : available_slots_in_grid grid - 2 ≤ (shuffle t1 d2).length
          · rw [if_pos hle] at h3
            injection h3 with h3a h3b
            injection h3a with h3a
            subst h3a
            refine ⟨?_, ?_, ?_⟩
            · rw [(shuffle_perm t2 _).length_eq]
              simp only [List.length_append, List.length_take, List.length_cons,
                List.length_nil]
              omega
            · rw [(shuffle_perm t2 _).mem_iff]
              simp
            · intro x hx
              rw [(shuffle_perm t2 _).mem_iff] at hx
              rcases List.mem_append.mp hx with hx | hx
              · left
                have hx2 : x ∈ shuffle t1 d2 := List.mem_of_mem_take hx
                rw [(shuffle_perm t1 d2).mem_iff] at hx2
                have hx3 : x ∈ d1 := removeCard_subset d1 goal d2 h2 x hx2
                exact removeCard_subset deck startFU d1 h1 x hx3
              · right
                simpa using hx
          · rw [if_neg hle] at h3
            injection h3 with h3a h3b
            cases h3a

theorem mkCartaBoard_inv (t1 t2 : Nat → Nat) (deck : List PlayingCard)
    (goal start : PlayingCard) (r c : Nat) (b : CartaBoard) (hr : 1 ≤ r)
    (hmk : mkCartaBoard t1 t2 deck (create_grid r c) goal start none = some b) :
    ∃ gcs, gridCardsOf t1 t2 deck (create_grid r c) goal { start with is_faceup := true }
        = some gcs
      ∧ b = { grid := (fillRows { start with is_faceup := true } 0 (create_grid r c)
                  { cards := gcs, loc := none }).1,
              goal_card := goal,
              starting_card := { start with is_faceup := true },
              player_location := (fillRows { start with is_faceup := true } 0 (create_grid r c)
                  { cards := gcs, loc := none }).2.loc,
              allowed_diections := defaultDirections } := by
  unfold mkCartaBoard at hmk
  rw [if_pos (is_valid_grid_create r c hr)] at hmk
  unfold buildGrid at hmk
  cases hgc : gridCardsOf t1 t2 deck (create_grid r c) goal { start with is_faceup := true } with
  | none =>
    rw [hgc] at hmk
    cases hmk
  | some gcs =>
    rw [hgc] at hmk
    injection hmk with hmk
    exact ⟨gcs, rfl, hmk.symm⟩

/-- C1 (amended): for every successful construction on an r-by-c
all-placeholder grid with at least two cells, from a deck of face-down
cards and a face-down goal card, every cell of the grid holds a card
(r*c occupied cells), exactly one cell is face-up — the one holding the
starting card (which `__init__` set face-up) — and at least one cell
holds a card equal to `goal_card` and at least one a card equal to
`starting_card`. The original "exactly one equals goal/starting" fails:
`PlayingCard.__eq__` ignores suit identity, so with the default
zero-ranked suits the goal and starting cards themselves compare equal
(see the counterexample). -/
theorem carta_build_cells (t1 t2 : Nat → Nat) (deck : List PlayingCard)
    (goal start : PlayingCard) (r c : Nat) (b : CartaBoard)
    (hrc : 2 ≤ r * c)
    (hdeck : ∀ x ∈ deck, x.is_faceup = false)
    (hgoal : goal.is_faceup = false)
    (hmk : mkCartaBoard t1 t2 deck (create_grid r c) goal start none = some b) :
    (boardCells b).length = r * c
    ∧ (∀ cl ∈ boardCells b, cl.isCard = true)
    ∧ (boardCells b).countP cellFaceUp = 1
    ∧ (∀ cl ∈ boardCells b, cellFaceUp cl = true →
        cl = Cell.card { start with is_faceup := true })
    ∧ 1 ≤ (boardCells b).countP (fun cl => cellEqCard cl goal)
    ∧ 1 ≤ (boardCells b).countP (fun cl => cellEqCard cl start) := by
  have hr : 1 ≤ r := by
    rcases Nat.eq_zero_or_pos r with rfl | h
    · simp at hrc
    · exact h
  have hc : 1 ≤ c := by
    rcases Nat.eq_zero_or_pos c with rfl | h
    · simp at hrc
    · exact h
  obtain ⟨gcs, hgc, hb⟩ := mkCartaBoard_inv t1 t2 deck goal start r c b hr hmk
  obtain ⟨hglen, hgmem, hgsub⟩ := gridCardsOf_inv t1 t2 deck _ goal _ gcs hgc
  rw [available_slots_create] at hglen
  have hlen1 : gcs.length + 1 = r * c := by omega
  have hfill := fillRows_replicate { start with is_faceup := true } r hr c 0 gcs none hc hlen1
  have hdown : ∀ x ∈ gcs, x.is_faceup = false := by
    intro x hx
    rcases hgsub x hx with hx2 | rfl
    · exact hdeck x hx2
    · exact hgoal
  replace hfill : (fillRows { start with is_faceup := true } 0 (create_grid r c)
        { cards := gcs, loc := none }).1.flatten
      = gcs.reverse.map Cell.card ++ [Cell.card { start with is_faceup := true }] := hfill.1
  subst hb
  simp only [boardCells]
  rw [hfill]
  refine ⟨?_, ?_, ?_, ?_, ?_, ?_⟩
  · simp only [List.length_append, List.length_map, List.length_reverse, List.length_cons,
      List.length_nil]
    omega
  · intro cl hcl
    rcases List.mem_append.mp hcl with hcl | hcl
    · rcases List.mem_map.mp hcl with ⟨x, _, rfl⟩
      rfl
    · rcases List.mem_singleton.mp hcl with rfl
      rfl
  · rw [List.countP_append, List.countP_map]
    have hzero : gcs.reverse.countP (cellFaceUp ∘ Cell.card) = 0 := by
      rw [List.countP_eq_zero]
      intro x hx
      have := hdown x (List.mem_reverse.mp hx)
      simp [cellFaceUp, Function.comp, this]
    rw [hzero]
    simp [cellFaceUp]
  · intro cl hcl hfu
    rcases List.mem_append.mp hcl with hcl | hcl
    · rcases List.mem_map.mp hcl with ⟨x, hx, rfl⟩
      have := hdown x (List.mem_reverse.mp hx)
      simp [cellFaceUp, this] at hfu
    · exact List.mem_singleton.mp hcl
  · apply List.countP_pos_iff.mpr
    refine ⟨Cell.card goal, ?_, ?_⟩
    · exact List.mem_append.mpr (Or.inl (List.mem_map.mpr
        ⟨goal, List.mem_reverse.mpr hgmem, rfl⟩))
    · simp [cellEqCard, cardEq]
  · apply List.countP_pos_iff.mpr
    refine ⟨Cell.card { start with is_faceup := true }, ?_, ?_⟩
    · exact List.mem_append.mpr (Or.inr (List.mem_singleton.mpr rfl))
    · simp [cellEqCard, cardEq]

/-- C7 (amended): for every successful construction on an r-by-c
all-placeholder grid with at least two cells, the fill loop walks the
cells in row-major order popping the shuffled `grid_cards` (from the
back, `list.pop()`), and the starting card lands in the one cell left
when they run out — the last cell in row-major order — with
`player_location` set to its coordinates (r-1, c-1). On a grid with
fewer than two placeholder cells the claim fails: the 1x1 build
completes without ever placing the starting card or assigning
`player_location` (see the counterexample). -/
theorem carta_build_fill_order (t1 t2 : Nat → Nat) (deck : List PlayingCard)
    (goal start : PlayingCard) (r c : Nat) (b : CartaBoard)
    (hrc : 2 ≤ r * c)
    (hmk : mkCartaBoard t1 t2 deck (create_grid r c) goal start none = some b) :
    ∃ gcs, gridCardsOf t1 t2 deck (create_grid r c) goal { start with is_faceup := true }
        = some gcs
      ∧ b.grid.flatten = gcs.reverse.map Cell.card
          ++ [Cell.card { start with is_faceup := true }]
      ∧ b.player_location = some (r - 1, c - 1) := by
  have hr : 1 ≤ r := by
    rcases Nat.eq_zero_or_pos r with rfl | h
    · simp at hrc
    · exact h
  have hc : 1 ≤ c := by
    rcases Nat.eq_zero_or_pos c with rfl | h
    · simp at hrc
    · exact h
  obtain ⟨gcs, hgc, hb⟩ := mkCartaBoard_inv t1 t2 deck goal start r c b hr hmk
  obtain ⟨hglen, _, _⟩ := gridCardsOf_inv t1 t2 deck _ goal _ gcs hgc
  rw [available_slots_create] at hglen
  have hlen1 : gcs.length + 1 = r * c := by omega
  have hfill := fillRows_replicate { start with is_faceup := true } r hr c 0 gcs none hc hlen1
  refine ⟨gcs, hgc, ?_, ?_⟩
  · rw [hb]
    exact hfill.1
  · rw [hb]
    have h2 : (fillRows { start with is_faceup := true } 0 (create_grid r c)
        { cards := gcs, loc := none }).2
        = { cards := [], loc := some (0 + (r - 1), c - 1) } := hfill.2
    show (fillRows { start with is_faceup := true } 0 (create_grid r c)
        { cards := gcs, loc := none }).2.loc = some (r - 1, c - 1)
    rw [h2]
    simp

/-- C1 counterexample: the spec's own end-to-end instance — the 4x6
ace-low build with `goal_card = Hearts-2` and `starting_card = Clubs-2`
— succeeds, but TWO cells (not exactly one) hold a card equal to
`goal_card` under `PlayingCard.__eq__` (witnessed here at the all-zero
random tape): the default suits all have rank 0, so the starting card
Clubs-2 itself compares equal to Hearts-2. -/
theorem fourBySix_goal_card_count_not_one :
    cardEq clubs2 hearts2 = true
    ∧ (mkCartaBoard t0 t0 aceLowDeck (create_grid 4 6) hearts2 clubs2 none).isSome = true
    ∧ ((mkCartaBoard t0 t0 aceLowDeck (create_grid 4 6) hearts2 clubs2 none).getD
        b1x1).grid.flatten.countP (fun cl => cellEqCard cl hearts2) = 2
    ∧ ((mkCartaBoard t0 t0 aceLowDeck (create_grid 4 6) hearts2 clubs2 none).getD
        b1x1).grid.flatten.countP (fun cl => cellEqCard cl clubs2) = 2 := by
  refine ⟨rfl, rfl, rfl, rfl⟩

/-- C1 witness: a concrete successful 2x1 build (three-card deck with
distinct suit ranks) has 2 occupied cells, per the amended claim. -/
theorem carta_build_cells_witness :
    (boardCells ((mkCartaBoard t0 t0 [miniCard3, miniGoal, miniStart] (create_grid 2 1)
        miniGoal miniStart none).getD b1x1)).length = 2 * 1 :=
  (carta_build_cells t0 t0 [miniCard3, miniGoal, miniStart] miniGoal miniStart 2 1
    ((mkCartaBoard t0 t0 [miniCard3, miniGoal, miniStart] (create_grid 2 1)
        miniGoal miniStart none).getD b1x1)
    (by decide) (by decide) (by decide) (by rfl)).1

/-- The C7 claim as stated: every successful construction records a
`player_location` holding the starting card's cell. -/
def claimC7 : Prop :=
  ∀ (t1 t2 : Nat → Nat) (deck : List PlayingCard) (grid : List (List Cell))
    (goal start : PlayingCard) (b : CartaBoard),
    mkCartaBoard t1 t2 deck grid goal start none = some b →
    ∃ i j, b.player_location = some (i, j)
      ∧ b.grid.flatten.contains (Cell.card { start with is_faceup := true }) = true

/-- C7 counterexample: a 1x1 grid builds "successfully" (no exception),
yet the fill loop exhausts its single cell on the goal card: the
starting card is never placed and `player_location` is never assigned
(`AttributeError` awaits any later access). -/
theorem claimC7_false : ¬claimC7 := by
  intro h
  obtain ⟨i, j, hij, _⟩ := h t0 t0 [miniGoal, miniStart] [[Cell.ph true]] miniGoal miniStart
    ((mkCartaBoard t0 t0 [miniGoal, miniStart] [[Cell.ph true]] miniGoal miniStart none).getD
      b1x1) rfl
  have hnone : ((mkCartaBoard t0 t0 [miniGoal, miniStart] [[Cell.ph true]] miniGoal miniStart
      none).getD b1x1).player_location = none := rfl
  rw [hnone] at hij
  cases hij

/-- C7 witness: in the concrete successful 2x1 build, the starting card
lands in the last (row-major) cell and `player_location` is (1, 0). -/
theorem carta_build_fill_order_witness :
    ((mkCartaBoard t0 t0 [miniCard3, miniGoal, miniStart] (create_grid 2 1)
        miniGoal miniStart none).getD b1x1).player_location = some (2 - 1, 1 - 1) := by
  obtain ⟨gcs, hgc, hflat, hloc⟩ := carta_build_fill_order t0 t0
    [miniCard3, miniGoal, miniStart] miniGoal miniStart 2 1
    ((mkCartaBoard t0 t0 [miniCard3, miniGoal, miniStart] (create_grid 2 1)
        miniGoal miniStart none).getD b1x1)
    (by decide) (by rfl)
  exact hloc
